import Mathlib

/-!
Verification of the first-order link-prediction engine of scikit-network
(src/sknetwork/linkpred/first_order.py) against its specification.

The CSR data model, `fit`, `PreferentialAttachment._predict_base` and
`FirstOrder._predict_node` are translated from the Python source.  The
per-metric similarity kernels (implemented in the Cython module
`first_order_core`, not part of the provided sources) and the prediction
dispatcher (`BaseLinkPred`, also not provided) are modelled from the
specification, as marked in their doc comments.

Machine integers: the source stores `indptr_` and `indices_` as numpy
`int32` arrays.  Offsets and node ids are modelled as `Nat` together with
the invariant that every stored offset is below `2 ^ 31` (so that the
`astype(np.int32)` conversion is value-preserving), and the `int32`
multiplication performed by `PreferentialAttachment` is modelled by the
explicit wrap-around function `int32wrap`.
-/

/-- Two-complement wrap-around of an integer into the `int32` range
`[-2 ^ 31, 2 ^ 31)`, the semantics of numpy `int32` arithmetic. -/
def int32wrap (x : Int) : Int := (x + 2 ^ 31) % 2 ^ 32 - 2 ^ 31

/-- A CSR adjacency as accepted by `FirstOrder.fit` after `check_format`
(the validated sparse matrix): a pointer array and a concatenated column
index array.  Rows need not be sorted yet. -/
structure RawCSR where
  indptr : List Nat
  indices : List Nat
deriving DecidableEq

/-- Number of nodes: `indptr` has one entry per node plus one. -/
def RawCSR.n (r : RawCSR) : Nat := r.indptr.length - 1

/-- Row `i` of the raw matrix: the slice `indices[indptr[i]:indptr[i+1]]`. -/
def RawCSR.row (r : RawCSR) (i : Nat) : List Nat :=
  (r.indices.drop (r.indptr.getD i 0)).take (r.indptr.getD (i+1) 0 - r.indptr.getD i 0)

/-- Well-formedness of a CSR input, the contract provided by
`check_format` (modelled from the spec, section 4.1): a nonempty pointer
array starting at 0, monotone, ending at the length of `indices`, and all
column ids in range. -/
def RawValid (r : RawCSR) : Prop :=
  r.indptr ≠ [] ∧
  r.indptr.getD 0 0 = 0 ∧
  (∀ k, k < r.indptr.length - 1 → r.indptr.getD k 0 ≤ r.indptr.getD (k+1) 0) ∧
  r.indptr.getD r.n 0 = r.indices.length ∧
  (∀ x ∈ r.indices, x < r.n)

/-- The state stored by a fitted `FirstOrder` instance: the attributes
`indptr_` and `indices_` (source lines 40-41). -/
structure Fitted where
  indptr : List Nat
  indices : List Nat
deriving DecidableEq

/-- `n = self.indptr_.shape[0] - 1` (source line 47). -/
def Fitted.n (g : Fitted) : Nat := g.indptr.length - 1

/-- Degree of node `i`: `indptr_[i+1] - indptr_[i]`. -/
def Fitted.deg (g : Fitted) (i : Nat) : Nat :=
  g.indptr.getD (i+1) 0 - g.indptr.getD i 0

/-- Stored neighbor list of node `i`: the slice
`indices_[indptr_[i]:indptr_[i+1]]`. -/
def Fitted.nbrs (g : Fitted) (i : Nat) : List Nat :=
  (g.indices.drop (g.indptr.getD i 0)).take (g.deg i)

/-- The rows stored by `fit`: each raw row sorted ascending, the effect of
`adjacency.sort_indices()` (source line 39; `sort_indices` itself is a
scipy routine, modelled from the spec: "neighbors sorted per row"). -/
def rowsFit (r : RawCSR) : List (List Nat) :=
  (List.range r.n).map (fun i => (r.row i).insertionSort (· ≤ ·))

/-- `FirstOrder.fit` (source lines 26-43): sort the indices of each row and
store the pointer array and the concatenated sorted rows. -/
def fit (r : RawCSR) : Fitted :=
  { indptr := r.indptr, indices := (rowsFit r).flatten }

/-- Invariants of a fitted CSR view (spec, section 3): monotone pointer
array from 0 to the number of stored edges, ids in range, each neighbor
slice sorted ascending with no duplicates, and every offset within the
`int32` range used by the stored arrays. -/
def ValidFitted (g : Fitted) : Prop :=
  g.indptr ≠ [] ∧
  g.indptr.getD 0 0 = 0 ∧
  (∀ k, k < g.indptr.length - 1 → g.indptr.getD k 0 ≤ g.indptr.getD (k+1) 0) ∧
  g.indptr.getD g.n 0 = g.indices.length ∧
  (∀ x ∈ g.indices, x < g.n) ∧
  (∀ k, k < g.indptr.length → g.indptr.getD k 0 < 2 ^ 31) ∧
  (∀ i, i < g.n → List.Sorted (· < ·) (g.nbrs i))

instance (r : RawCSR) : Decidable (RawValid r) := by
  unfold RawValid; exact inferInstance

instance (g : Fitted) : Decidable (ValidFitted g) := by
  unfold ValidFitted; exact inferInstance

/-- Drop the elements of a sorted list strictly below `a`: the advancing
second pointer of the sorted-merge intersection primitive. -/
def skipLt (a : Nat) : List Nat → List Nat
  | [] => []
  | b :: bs => if b < a then skipLt a bs else b :: bs

/-- Size of the intersection of two sorted neighbor lists computed by the
linear two-pointer merge shared by all kernels (modelled from the spec,
section 4.2: the Cython sources are not provided). -/
def interSize : List Nat → List Nat → Nat
  | [], _ => 0
  | a :: as, l2 =>
    match skipLt a l2 with
    | [] => 0
    | b :: bs => if a = b then interSize as bs + 1 else interSize as (b :: bs)

/-- The common neighbors of `i` and `j` as a list, in stored order. -/
def interList (g : Fitted) (i j : Nat) : List Nat :=
  (g.nbrs i).filter (fun z => decide (z ∈ g.nbrs j))

/-- Common Neighbors score (modelled from the spec, section 4.2). -/
def cnScore (g : Fitted) (i j : Nat) : Nat := interSize (g.nbrs i) (g.nbrs j)

/-- Jaccard score (modelled from the spec, section 4.2). -/
def jaccardScore (g : Fitted) (i j : Nat) : ℚ :=
  let c : ℚ := cnScore g i j
  let d : ℚ := (g.deg i : ℚ) + (g.deg j : ℚ) - c
  if d = 0 then 0 else c / d

/-- Sorensen score (modelled from the spec, section 4.2). -/
def sorensenScore (g : Fitted) (i j : Nat) : ℚ :=
  if g.deg i + g.deg j = 0 then 0
  else 2 * (cnScore g i j : ℚ) / ((g.deg i : ℚ) + (g.deg j : ℚ))

/-- Hub Promoted score (modelled from the spec, section 4.2). -/
def hubPromotedScore (g : Fitted) (i j : Nat) : ℚ :=
  if min (g.deg i) (g.deg j) = 0 then 0
  else 2 * (cnScore g i j : ℚ) / (min (g.deg i) (g.deg j) : ℚ)

/-- Hub Depressed score (modelled from the spec, section 4.2). -/
def hubDepressedScore (g : Fitted) (i j : Nat) : ℚ :=
  if max (g.deg i) (g.deg j) = 0 then 0
  else 2 * (cnScore g i j : ℚ) / (max (g.deg i) (g.deg j) : ℚ)

/-- Salton score (modelled from the spec, section 4.2). -/
noncomputable def saltonScore (g : Fitted) (i j : Nat) : ℝ :=
  if g.deg i * g.deg j = 0 then 0
  else (cnScore g i j : ℝ) / Real.sqrt ((g.deg i : ℝ) * (g.deg j : ℝ))

/-- Adamic-Adar score (modelled from the spec, section 4.2: common
neighbors of degree at most one contribute zero). -/
noncomputable def adamicAdarScore (g : Fitted) (i j : Nat) : ℝ :=
  ((interList g i j).map
    (fun z => if g.deg z ≤ 1 then 0 else 1 / Real.log (g.deg z))).sum

/-- Resource Allocation score (modelled from the spec, section 4.2). -/
def resourceAllocationScore (g : Fitted) (i j : Nat) : ℚ :=
  ((interList g i j).map (fun z => 1 / (g.deg z : ℚ))).sum

/-- Preferential Attachment pair score at the level of valid node ids:
the degree product computed in `int32` arithmetic
(`PreferentialAttachment._predict_base`, source lines 453-458). -/
def paScore (g : Fitted) (i j : Nat) : Int :=
  int32wrap ((g.deg i : Int) * (g.deg j : Int))

/-- Numpy integer indexing of a 1-dimensional array: nonnegative positions
index from the front, positions in `[-len, -1]` wrap around to the back,
anything else raises `IndexError` (modelled by `none`). -/
def numpyGet (arr : List Nat) (k : Int) : Option Nat :=
  if 0 ≤ k ∧ k < (arr.length : Int) then some (arr.getD k.toNat 0)
  else if -(arr.length : Int) ≤ k ∧ k < 0 then some (arr.getD (k + arr.length).toNat 0)
  else none

/-- Option-valued map over a list: fails if any element fails, mirroring a
numpy vectorized operation that raises on any bad element. -/
def optMap {α β : Type} (f : α → Option β) : List α → Option (List β)
  | [] => some []
  | a :: l => (f a).bind fun b => (optMap f l).map (fun bs => b :: bs)

/-- `PreferentialAttachment._predict_base` (source lines 453-458):
`deg_src = indptr_[source+1] - indptr_[source]`,
`deg_tgt = indptr_[tgt+1] - indptr_[tgt]` for the target array, and the
returned scores are the `int32` products `deg_src * deg_tgt`.  Array
indexing follows numpy semantics (`numpyGet`), so it wraps negative
positions and raises `IndexError` (`none`) out of `[-len, len)`. -/
def paPredictBase (g : Fitted) (source : Int) (targets : List Int) : Option (List Int) :=
  (numpyGet g.indptr (source + 1)).bind fun a =>
  (numpyGet g.indptr source).bind fun b =>
  (optMap (fun t =>
      (numpyGet g.indptr (t + 1)).bind fun c =>
      (numpyGet g.indptr t).bind fun d =>
        some (int32wrap ((c : Int) - (d : Int)))) targets).map fun degs =>
    degs.map (fun dt => int32wrap (int32wrap ((a : Int) - (b : Int)) * dt))

/-- Validation of a query node id against `[0, n)` (modelled from the
spec, section 4.3: ids outside the valid range raise `IndexError`). -/
def checkId (n : Nat) (k : Int) : Option Nat :=
  if 0 ≤ k ∧ k < (n : Int) then some k.toNat else none

/-- Common Neighbors kernel over a target list (the Cython
`c_common_neigh` is not provided; modelled from the spec, sections 4.2
and 4.3). -/
def cnKernel (g : Fitted) (s : Int) (ts : List Int) : Option (List Nat) :=
  (checkId g.n s).bind fun si =>
    optMap (fun t => (checkId g.n t).map fun ti => cnScore g si ti) ts

/-- Jaccard kernel over a target list (the Cython `c_jaccard` is not
provided; modelled from the spec, sections 4.2 and 4.3). -/
def jaccardKernel (g : Fitted) (s : Int) (ts : List Int) : Option (List ℚ) :=
  (checkId g.n s).bind fun si =>
    optMap (fun t => (checkId g.n t).map fun ti => jaccardScore g si ti) ts

/-- Preferential Attachment kernel: directly the translated
`_predict_base` of the source. -/
def paKernel (g : Fitted) : Int → List Int → Option (List Int) :=
  paPredictBase g

/-- The four query shapes accepted by `predict` (spec, section 4.3). -/
inductive LPQuery where
  | node (i : Int)
  | nodes (l : List Int)
  | pair (p : Int × Int)
  | pairs (l : List (Int × Int))
deriving DecidableEq

/-- The result shapes returned by `predict` (spec, sections 4.3 and 6). -/
inductive LPResult (S : Type) where
  | scalar (x : S)
  | vector (v : List S)
  | matrix (m : List (List S))
deriving DecidableEq

/-- The target array `np.arange(n)` used by `_predict_node`
(source line 48). -/
def intRange (n : Nat) : List Int := (List.range n).map Int.ofNat

/-- Score of a single (source, target) pair: the kernel applied to a
single-element target array, first entry of the result (modelled from the
spec, section 4.3). -/
def predictEdge {S : Type} (K : Int → List Int → Option (List S)) (p : Int × Int) :
    Option S :=
  (K p.1 [p.2]).bind List.head?

/-- The prediction dispatcher of `BaseLinkPred` (not provided; modelled
from the spec, section 4.3): a single node id is scored against every
node, a list of ids gives one row per id, a pair gives a scalar, a list of
pairs gives one score per pair in order. -/
def predictDisp {S : Type} (K : Int → List Int → Option (List S)) (n : Nat) :
    LPQuery → Option (LPResult S)
  | LPQuery.node i => (K i (intRange n)).map LPResult.vector
  | LPQuery.nodes l => (optMap (fun i => K i (intRange n)) l).map LPResult.matrix
  | LPQuery.pair p => (predictEdge K p).map LPResult.scalar
  | LPQuery.pairs l => (optMap (predictEdge K) l).map LPResult.vector

/-- A predict call as a state transformer on the fitted instance: the
source predict methods only read `self.indptr_` and `self.indices_` and
never assign them, so the state component is returned unchanged. -/
def predictSt {S : Type} (K : Fitted → Int → List Int → Option (List S))
    (g : Fitted) (q : LPQuery) : Fitted × Option (LPResult S) :=
  (g, predictDisp (K g) g.n q)

/-- `fit_predict`: fit then predict in one call (spec, section 4.3). -/
def fitPredict {S : Type} (K : Fitted → Int → List Int → Option (List S))
    (r : RawCSR) (q : LPQuery) : Option (LPResult S) :=
  predictDisp (K (fit r)) (fit r).n q

/-- Rounding to two decimal places, used to state the documented rounded
Jaccard values (no tie arises at the checked inputs, so the difference
between half-up and the numpy half-even rule is immaterial). -/
def round2 (q : ℚ) : ℚ := (⌊100 * q + 1/2⌋ : ℤ) / 100

/-- The 5-node house graph of `sknetwork.data.house`: a 4-cycle
0-1-2-3-4-0 closed by the triangle edge 1-4, as a CSR adjacency. -/
def houseRaw : RawCSR :=
  { indptr := [0, 2, 5, 7, 9, 12]
    indices := [1, 4, 0, 2, 4, 1, 3, 2, 4, 0, 1, 3] }

/-- The house graph after `fit`. -/
def houseFitted : Fitted := fit houseRaw

/-- A fitted instance over 46341 nodes in which nodes 0 and 1 each have
degree 46341, so that their degree product 46341 * 46341 = 2147488281
exceeds the `int32` range. -/
def gBig : Fitted :=
  { indptr := 0 :: 46341 :: 92682 :: List.replicate 46339 92682
    indices := List.range 46341 ++ List.range 46341 }

/-- A raw CSR input whose first row is stored with unsorted indices. -/
def rawUnsorted : RawCSR := { indptr := [0, 2, 3], indices := [1, 0, 0] }

/-- A fitted instance on 2 nodes. -/
def gA : Fitted := { indptr := [0, 1, 2], indices := [0, 1] }

/-- A fitted instance with the same pointer array as `gA` but different
stored neighbor contents. -/
def gB : Fitted := { indptr := [0, 1, 2], indices := [1, 0] }

/-- Symmetric insertion of the undirected edge `{u, v}` into a boolean
adjacency. -/
def addEdge (A : Nat → Nat → Bool) (u v : Nat) : Nat → Nat → Bool :=
  fun a b => if (a = u ∧ b = v) ∨ (a = v ∧ b = u) then true else A a b

/-- The neighbor rows of a boolean adjacency on `n` nodes. -/
def rowsOf (n : Nat) (A : Nat → Nat → Bool) : List (List Nat) :=
  (List.range n).map (fun i => (List.range n).filter (A i))

/-- A boolean adjacency on `n` nodes as a CSR input: pointer array of
prefix sums of row lengths over the concatenated rows. -/
def toRaw (n : Nat) (A : Nat → Nat → Bool) : RawCSR :=
  { indptr := (List.range (n+1)).map
      (fun k => (((rowsOf n A).take k).map List.length).sum)
    indices := (rowsOf n A).flatten }

/-- The house graph with the edge {2, 3} removed, as a boolean
adjacency. -/
def houseA : Nat → Nat → Bool :=
  fun a b => decide ((a, b) ∈
    ([(0,1), (1,0), (0,4), (4,0), (1,2), (2,1), (1,4), (4,1), (3,4), (4,3)] :
      List (Nat × Nat)))

/-! Helper lemmas about CSR slices and the fitted state. -/

lemma getD_map_range {α : Type} (f : Nat → α) {n i : Nat} (h : i < n) (d : α) :
    ((List.range n).map f).getD i d = f i := by
  simp [List.getD, List.getElem?_map, List.getElem?_range, h]

lemma ptr_mono (p : List Nat) (hm : ∀ k, k < p.length - 1 → p.getD k 0 ≤ p.getD (k+1) 0)
    {a b : Nat} (hab : a ≤ b) (hb : b < p.length) : p.getD a 0 ≤ p.getD b 0 := by
  induction b with
  | zero => have : a = 0 := Nat.le_zero.mp hab; simp [this]
  | succ b ih =>
    rcases Nat.lt_or_ge a (b+1) with h | h
    · exact le_trans (ih (Nat.lt_succ_iff.mp h) (by omega)) (hm b (by omega))
    · have : a = b + 1 := le_antisymm hab h
      simp [this]

lemma slice_flatten {α : Type} (L : List (List α)) :
    ∀ i, i < L.length →
      (L.flatten.drop (((L.take i).map List.length).sum)).take (L.getD i []).length
        = L.getD i [] := by
  induction L with
  | nil => intro i h; simp at h
  | cons r rs ih =>
    intro i hi
    cases i with
    | zero => simp [List.take_left]
    | succ i =>
      simp only [List.take_succ_cons, List.map_cons, List.sum_cons, List.flatten_cons,
        List.getD_cons_succ]
      rw [← List.drop_drop, List.drop_left]
      exact ih i (by simpa using hi)

lemma indptr_len (r : RawCSR) (hr : RawValid r) : r.indptr.length = r.n + 1 := by
  have := List.length_pos.mpr hr.1
  unfold RawCSR.n
  omega

lemma row_length (r : RawCSR) (hr : RawValid r) {i : Nat} (hi : i < r.n) :
    (r.row i).length = r.indptr.getD (i+1) 0 - r.indptr.getD i 0 := by
  have hlen := indptr_len r hr
  have h1 : r.indptr.getD (i+1) 0 ≤ r.indices.length := by
    rw [← hr.2.2.2.1]
    exact ptr_mono _ hr.2.2.1 (by omega) (by omega)
  have h2 : r.indptr.getD i 0 ≤ r.indptr.getD (i+1) 0 :=
    hr.2.2.1 i (by omega)
  unfold RawCSR.row
  rw [List.length_take, List.length_drop]
  omega

lemma rowsFit_length (r : RawCSR) : (rowsFit r).length = r.n := by
  simp [rowsFit]

lemma rowsFit_getD (r : RawCSR) {i : Nat} (hi : i < r.n) :
    (rowsFit r).getD i [] = (r.row i).insertionSort (· ≤ ·) :=
  getD_map_range _ hi []

lemma fit_prefix (r : RawCSR) (hr : RawValid r) :
    ∀ i, i ≤ r.n → (((rowsFit r).take i).map List.length).sum = r.indptr.getD i 0 := by
  intro i
  induction i with
  | zero => intro _; simpa using hr.2.1.symm
  | succ i ih =>
    intro h
    have hi : i < r.n := by omega
    have hlen := indptr_len r hr
    rw [List.take_succ]
    have hget : (rowsFit r)[i]? = some ((r.row i).insertionSort (· ≤ ·)) := by
      unfold rowsFit
      simp [List.getElem?_map, List.getElem?_range, hi]
    rw [hget]
    simp only [Option.toList_some, List.map_append, List.sum_append, List.map_cons,
      List.map_nil, List.sum_cons, List.sum_nil, add_zero]
    rw [ih (by omega), List.length_insertionSort, row_length r hr hi]
    have h2 : r.indptr.getD i 0 ≤ r.indptr.getD (i+1) 0 :=
      hr.2.2.1 i (by omega)
    omega

lemma fit_nbrs (r : RawCSR) (hr : RawValid r) {i : Nat} (hi : i < r.n) :
    (fit r).nbrs i = (r.row i).insertionSort (· ≤ ·) := by
  have hdeg : (fit r).deg i = ((rowsFit r).getD i []).length := by
    unfold Fitted.deg fit
    simp only [rowsFit_getD r hi, List.length_insertionSort, row_length r hr hi]
  unfold Fitted.nbrs
  rw [hdeg]
  show ((rowsFit r).flatten.drop (r.indptr.getD i 0)).take _ = _
  rw [← fit_prefix r hr i (le_of_lt hi)]
  rw [slice_flatten (rowsFit r) i (by rw [rowsFit_length]; exact hi)]
  exact rowsFit_getD r hi

lemma fit_n (r : RawCSR) : (fit r).n = r.n := rfl

/-! Lemmas about the sorted-merge intersection primitive. -/

lemma skipLt_suffix (a : Nat) : ∀ l : List Nat, skipLt a l <:+ l := by
  intro l
  induction l with
  | nil => simp [skipLt]
  | cons b bs ih =>
    by_cases hb : b < a
    · simp only [skipLt, if_pos hb]
      exact ih.trans (List.suffix_cons b bs)
    · simp [skipLt, hb]

lemma mem_skipLt {a : Nat} {l : List Nat} (hs : List.Sorted (· < ·) l) (x : Nat) :
    x ∈ skipLt a l ↔ x ∈ l ∧ a ≤ x := by
  induction l with
  | nil => simp [skipLt]
  | cons b bs ih =>
    have hbs := List.sorted_cons.mp hs
    by_cases hb : b < a
    · rw [skipLt, if_pos hb, ih hbs.2, List.mem_cons]
      constructor
      · rintro ⟨h1, h2⟩; exact ⟨Or.inr h1, h2⟩
      · rintro ⟨h1 | h1, h2⟩
        · omega
        · exact ⟨h1, h2⟩
    · rw [skipLt, if_neg hb]
      constructor
      · intro h1
        rcases List.mem_cons.mp h1 with rfl | h1
        · exact ⟨List.mem_cons_self x bs, by omega⟩
        · have := hbs.1 x h1
          exact ⟨List.mem_cons_of_mem b h1, by omega⟩
      · rintro ⟨h1, _⟩; exact h1

lemma interSize_cons_nil {a : Nat} {as l2 : List Nat} (h : skipLt a l2 = []) :
    interSize (a :: as) l2 = 0 := by
  unfold interSize; rw [h]

lemma interSize_cons_pos {a : Nat} {as l2 bs : List Nat} (h : skipLt a l2 = a :: bs) :
    interSize (a :: as) l2 = interSize as bs + 1 := by
  unfold interSize; rw [h]; simp; cases as <;> rfl

lemma interSize_cons_neg {a b : Nat} {as l2 bs : List Nat} (h : skipLt a l2 = b :: bs)
    (hab : a ≠ b) : interSize (a :: as) l2 = interSize as (b :: bs) := by
  unfold interSize; rw [h]; simp [hab]; cases as <;> rfl

lemma interSize_eq_card :
    ∀ (l1 l2 : List Nat), List.Sorted (· < ·) l1 → List.Sorted (· < ·) l2 →
      interSize l1 l2 = (l1.toFinset ∩ l2.toFinset).card := by
  intro l1
  induction l1 with
  | nil => intro l2 _ _; simp [interSize]
  | cons a as ih =>
    intro l2 h1 h2
    have h1c := List.sorted_cons.mp h1
    have hamem : a ∉ as := fun h => lt_irrefl a (h1c.1 a h)
    have hs2 : List.Sorted (· < ·) (skipLt a l2) :=
      h2.sublist (skipLt_suffix a l2).sublist
    cases hskip : skipLt a l2 with
    | nil =>
      rw [interSize_cons_nil hskip]
      symm
      rw [Finset.card_eq_zero, Finset.eq_empty_iff_forall_not_mem]
      intro x hx
      rw [Finset.mem_inter, List.mem_toFinset, List.mem_toFinset] at hx
      have hax : a ≤ x := by
        rcases List.mem_cons.mp hx.1 with rfl | h
        · omega
        · have := h1c.1 x h; omega
      have hmem : x ∈ skipLt a l2 := (mem_skipLt h2 x).mpr ⟨hx.2, hax⟩
      rw [hskip] at hmem
      simp at hmem
    | cons b bs =>
      have hs2q : List.Sorted (· < ·) (b :: bs) := hskip ▸ hs2
      have hbsmem : ∀ x, (x ∈ l2 ∧ a ≤ x) ↔ (x = b ∨ x ∈ bs) := by
        intro x
        rw [← List.mem_cons, ← hskip]
        exact (mem_skipLt h2 x).symm
      have hb : b ∈ l2 ∧ a ≤ b := (hbsmem b).mpr (Or.inl rfl)
      by_cases hab : a = b
      · subst hab
        rw [interSize_cons_pos hskip]
        rw [ih bs h1c.2 (List.sorted_cons.mp hs2q).2]
        have hset : (a :: as).toFinset ∩ l2.toFinset
            = insert a (as.toFinset ∩ bs.toFinset) := by
          ext x
          simp only [List.toFinset_cons, Finset.mem_inter, Finset.mem_insert,
            List.mem_toFinset]
          constructor
          · rintro ⟨rfl | hx, hx2⟩
            · exact Or.inl rfl
            · refine Or.inr ⟨hx, ?_⟩
              have hgt := h1c.1 x hx
              rcases (hbsmem x).mp ⟨hx2, by omega⟩ with rfl | h
              · omega
              · assumption
          · rintro (rfl | ⟨hx, hx2⟩)
            · exact ⟨Or.inl rfl, hb.1⟩
            · have hx3 : x ∈ l2 ∧ a ≤ x := (hbsmem x).mpr (Or.inr hx2)
              exact ⟨Or.inr hx, hx3.1⟩
        rw [hset, Finset.card_insert_of_not_mem]
        simp only [Finset.mem_inter, List.mem_toFinset]
        exact fun h => hamem h.1
      · rw [interSize_cons_neg hskip hab]
        rw [ih (b :: bs) h1c.2 hs2q]
        congr 1
        have hanotin : a ∉ l2 := by
          intro hal
          rcases (hbsmem a).mp ⟨hal, le_refl a⟩ with h | h
          · exact hab h
          · have := (List.sorted_cons.mp hs2q).1 a h
            omega
        ext x
        simp only [List.toFinset_cons, Finset.mem_inter, Finset.mem_insert,
          List.mem_toFinset]
        constructor
        · rintro ⟨hx, hx2⟩
          have hx3 : x ∈ l2 ∧ a ≤ x := (hbsmem x).mpr hx2
          exact ⟨Or.inr hx, hx3.1⟩
        · rintro ⟨rfl | hx, hx2⟩
          · exact absurd hx2 hanotin
          · have hgt := h1c.1 x hx
            exact ⟨hx, (hbsmem x).mp ⟨hx2, by omega⟩⟩

lemma interSize_self : ∀ l : List Nat, interSize l l = l.length := by
  intro l
  induction l with
  | nil => rfl
  | cons a as ih =>
    have hskip : skipLt a (a :: as) = a :: as := by simp [skipLt]
    rw [interSize_cons_pos hskip, ih, List.length_cons]

lemma interSize_comm {l1 l2 : List Nat}
    (h1 : List.Sorted (· < ·) l1) (h2 : List.Sorted (· < ·) l2) :
    interSize l1 l2 = interSize l2 l1 := by
  rw [interSize_eq_card l1 l2 h1 h2, interSize_eq_card l2 l1 h2 h1, Finset.inter_comm]

lemma sorted_lt_ext : ∀ {l1 l2 : List Nat}, List.Sorted (· < ·) l1 →
    List.Sorted (· < ·) l2 → (∀ x, x ∈ l1 ↔ x ∈ l2) → l1 = l2 := by
  intro l1
  induction l1 with
  | nil =>
    intro l2 _ _ hm
    cases l2 with
    | nil => rfl
    | cons b bs => exact absurd ((hm b).mpr (List.mem_cons_self b bs)) (by simp)
  | cons a as ih =>
    intro l2 h1 h2 hm
    cases l2 with
    | nil => exact absurd ((hm a).mp (List.mem_cons_self a as)) (by simp)
    | cons b bs =>
      have h1c := List.sorted_cons.mp h1
      have h2c := List.sorted_cons.mp h2
      have hab : a = b := by
        have ha := (hm a).mp (List.mem_cons_self a as)
        have hbmem := (hm b).mpr (List.mem_cons_self b bs)
        rcases List.mem_cons.mp ha with h | h
        · assumption
        · rcases List.mem_cons.mp hbmem with h4 | h4
          · omega
          · have := h2c.1 a h
            have := h1c.1 b h4
            omega
      subst hab
      congr 1
      apply ih h1c.2 h2c.2
      intro x
      constructor
      · intro hx
        have hgt := h1c.1 x hx
        rcases List.mem_cons.mp ((hm x).mp (List.mem_cons_of_mem a hx)) with rfl | h
        · omega
        · assumption
      · intro hx
        have hgt := h2c.1 x hx
        rcases List.mem_cons.mp ((hm x).mpr (List.mem_cons_of_mem a hx)) with rfl | h
        · omega
        · assumption

lemma interList_comm (g : Fitted) (hv : ValidFitted g) {i j : Nat}
    (hi : i < g.n) (hj : j < g.n) : interList g i j = interList g j i := by
  have hsi := hv.2.2.2.2.2.2 i hi
  have hsj := hv.2.2.2.2.2.2 j hj
  apply sorted_lt_ext (hsi.filter _) (hsj.filter _)
  intro x
  simp only [interList, List.mem_filter, decide_eq_true_eq]
  tauto

/-! Lemmas about numpy indexing and the Preferential Attachment kernel. -/

lemma int32wrap_eq_self {x : Int} (h1 : -(2^31) ≤ x) (h2 : x < 2^31) :
    int32wrap x = x := by
  unfold int32wrap
  omega

lemma fitted_indptr_len (g : Fitted) (hv : ValidFitted g) :
    g.indptr.length = g.n + 1 := by
  have := List.length_pos.mpr hv.1
  unfold Fitted.n
  omega

lemma deg_lt31 (g : Fitted) (hv : ValidFitted g) {i : Nat} (hi : i < g.n) :
    g.deg i < 2 ^ 31 := by
  have hlen := fitted_indptr_len g hv
  have hlt := hv.2.2.2.2.2.1 (i+1) (by omega)
  unfold Fitted.deg
  omega

lemma nbrs_length (g : Fitted) (hv : ValidFitted g) {i : Nat} (hi : i < g.n) :
    (g.nbrs i).length = g.deg i := by
  have hlen := fitted_indptr_len g hv
  have h1 : g.indptr.getD (i+1) 0 ≤ g.indices.length := by
    rw [← hv.2.2.2.1]
    exact ptr_mono _ hv.2.2.1 (by omega) (by omega)
  have h2 : g.indptr.getD i 0 ≤ g.indptr.getD (i+1) 0 :=
    hv.2.2.1 i (by omega)
  unfold Fitted.nbrs Fitted.deg
  rw [List.length_take, List.length_drop]
  omega

lemma numpyGet_none (arr : List Nat) (k : Int)
    (h : k < -(arr.length : Int) ∨ (arr.length : Int) ≤ k) : numpyGet arr k = none := by
  unfold numpyGet
  rw [if_neg (by omega), if_neg (by omega)]

lemma numpyGet_nat (arr : List Nat) {k : Nat} (h : k < arr.length) :
    numpyGet arr (k : Int) = some (arr.getD k 0) := by
  unfold numpyGet
  rw [if_pos ⟨Int.ofNat_nonneg k, by exact_mod_cast h⟩]
  simp

lemma numpyGet_neg (arr : List Nat) (k : Int) (h1 : -(arr.length : Int) ≤ k)
    (h2 : k < 0) : numpyGet arr k = some (arr.getD (k + arr.length).toNat 0) := by
  unfold numpyGet
  rw [if_neg (by omega), if_pos ⟨h1, h2⟩]

lemma numpyGet_isSome (arr : List Nat) (k : Int)
    (h : -(arr.length : Int) ≤ k ∧ k < (arr.length : Int)) : (numpyGet arr k).isSome := by
  by_cases h0 : 0 ≤ k
  · rw [numpyGet, if_pos ⟨h0, h.2⟩]; rfl
  · rw [numpyGet_neg arr k h.1 (by omega)]; rfl

lemma paPredictBase_pair (g : Fitted) (hv : ValidFitted g) {i j : Nat}
    (hi : i < g.n) (hj : j < g.n) :
    paPredictBase g (i : Int) [(j : Int)] = some [paScore g i j] := by
  have hlen := fitted_indptr_len g hv
  have hmi := hv.2.2.1 i (by omega)
  have hmj := hv.2.2.1 j (by omega)
  have hi31 := hv.2.2.2.2.2.1 (i+1) (by omega)
  have hj31 := hv.2.2.2.2.2.1 (j+1) (by omega)
  have hd31i := deg_lt31 g hv hi
  have hd31j := deg_lt31 g hv hj
  have e1 : (i : Int) + 1 = ((i + 1 : Nat) : Int) := by push_cast; ring
  have e2 : (j : Int) + 1 = ((j + 1 : Nat) : Int) := by push_cast; ring
  have hdi : int32wrap ((g.indptr.getD (i+1) 0 : Int) - (g.indptr.getD i 0 : Int))
      = (g.deg i : Int) := by
    rw [show (g.indptr.getD (i+1) 0 : Int) - (g.indptr.getD i 0 : Int)
        = (g.deg i : Int) by unfold Fitted.deg; omega]
    exact int32wrap_eq_self (by omega) (by omega)
  have hdj : int32wrap ((g.indptr.getD (j+1) 0 : Int) - (g.indptr.getD j 0 : Int))
      = (g.deg j : Int) := by
    rw [show (g.indptr.getD (j+1) 0 : Int) - (g.indptr.getD j 0 : Int)
        = (g.deg j : Int) by unfold Fitted.deg; omega]
    exact int32wrap_eq_self (by omega) (by omega)
  unfold paPredictBase optMap
  rw [e1, e2, numpyGet_nat _ (by omega), numpyGet_nat _ (by omega),
    numpyGet_nat _ (by omega), numpyGet_nat _ (by omega)]
  simp only [Option.bind_some, Option.map_some', Option.some_bind, List.map_cons,
    List.map_nil]
  rw [hdi, hdj]
  rfl

lemma optMap_isSome {α β : Type} (f : α → Option β) :
    ∀ l : List α, (∀ x ∈ l, (f x).isSome) → (optMap f l).isSome := by
  intro l
  induction l with
  | nil => intro _; rfl
  | cons a t ih =>
    intro h
    rcases Option.isSome_iff_exists.mp (h a (List.mem_cons_self a t)) with ⟨b, hb⟩
    rcases Option.isSome_iff_exists.mp (ih (fun x hx => h x (List.mem_cons_of_mem a hx)))
      with ⟨bs, hbs⟩
    rw [optMap, hb, hbs]
    rfl

lemma paPredictBase_oob (g : Fitted) (hv : ValidFitted g) (s : Int) (ts : List Int)
    (h : (g.n : Int) ≤ s ∨ s < -((g.n : Int) + 1)) :
    paPredictBase g s ts = none := by
  have hlen := fitted_indptr_len g hv
  rcases h with h | h
  · unfold paPredictBase
    rw [numpyGet_none _ _ (by omega)]
    rfl
  · by_cases h2 : s + 1 < -((g.indptr.length : Int))
    · unfold paPredictBase
      rw [numpyGet_none _ _ (Or.inl h2)]
      rfl
    · unfold paPredictBase
      rw [numpyGet_neg _ _ (by omega) (by omega), numpyGet_none _ _ (Or.inl (by omega))]
      rfl

lemma optMap_none_of_mem {α β : Type} (f : α → Option β) :
    ∀ (l : List α) (a : α), a ∈ l → f a = none → optMap f l = none := by
  intro l
  induction l with
  | nil => intro a ha _; cases ha
  | cons b t ih =>
    intro a ha hfa
    rw [optMap]
    rcases List.mem_cons.mp ha with rfl | ha2
    · rw [hfa]
      rfl
    · cases hfb : f b with
      | none => rfl
      | some x =>
        rw [ih a ha2 hfa]
        rfl

lemma paTargetDeg_none (g : Fitted) (hv : ValidFitted g) (t : Int)
    (h : (g.n : Int) ≤ t ∨ t < -((g.n : Int) + 1)) :
    ((numpyGet g.indptr (t + 1)).bind fun c =>
     (numpyGet g.indptr t).bind fun d =>
       some (int32wrap ((c : Int) - (d : Int)))) = none := by
  have hlen := fitted_indptr_len g hv
  rcases h with h | h
  · rw [numpyGet_none _ _ (by omega)]
    rfl
  · by_cases h2 : t + 1 < -((g.indptr.length : Int))
    · rw [numpyGet_none _ _ (Or.inl h2)]
      rfl
    · rw [numpyGet_neg _ _ (by omega) (by omega), numpyGet_none _ _ (Or.inl (by omega))]
      rfl

lemma paPredictBase_bad_target (g : Fitted) (hv : ValidFitted g) (s : Int)
    (hs1 : -((g.n : Int) + 1) ≤ s) (hs2 : s < (g.n : Int)) (ts : List Int) (t : Int)
    (ht : t ∈ ts) (hbad : (g.n : Int) ≤ t ∨ t < -((g.n : Int) + 1)) :
    paPredictBase g s ts = none := by
  have hlen := fitted_indptr_len g hv
  rcases Option.isSome_iff_exists.mp
    (numpyGet_isSome g.indptr (s+1) (by constructor <;> omega)) with ⟨a, ha⟩
  rcases Option.isSome_iff_exists.mp
    (numpyGet_isSome g.indptr s (by constructor <;> omega)) with ⟨b, hb⟩
  unfold paPredictBase
  rw [ha, hb]
  simp only [Option.some_bind]
  rw [optMap_none_of_mem _ ts t ht (paTargetDeg_none g hv t hbad)]
  rfl

lemma paPredictBase_inrange_isSome (g : Fitted) (hv : ValidFitted g) (s : Int)
    (hs1 : -((g.n : Int) + 1) ≤ s) (hs2 : s < (g.n : Int)) (ts : List Int)
    (hts : ∀ t ∈ ts, -((g.n : Int) + 1) ≤ t ∧ t < (g.n : Int)) :
    (paPredictBase g s ts).isSome := by
  have hlen := fitted_indptr_len g hv
  rcases Option.isSome_iff_exists.mp
    (numpyGet_isSome g.indptr (s+1) (by constructor <;> omega)) with ⟨a, ha⟩
  rcases Option.isSome_iff_exists.mp
    (numpyGet_isSome g.indptr s (by constructor <;> omega)) with ⟨b, hb⟩
  have hmap : (optMap (fun t =>
      (numpyGet g.indptr (t + 1)).bind fun c =>
      (numpyGet g.indptr t).bind fun d =>
        some (int32wrap ((c : Int) - (d : Int)))) ts).isSome := by
    apply optMap_isSome
    intro t ht
    rcases Option.isSome_iff_exists.mp
      (numpyGet_isSome g.indptr (t+1) (by have := hts t ht; constructor <;> omega))
      with ⟨c, hc⟩
    rcases Option.isSome_iff_exists.mp
      (numpyGet_isSome g.indptr t (by have := hts t ht; constructor <;> omega))
      with ⟨d, hd⟩
    rw [hc, hd]
    rfl
  rcases Option.isSome_iff_exists.mp hmap with ⟨degs, hdegs⟩
  unfold paPredictBase
  rw [ha, hb, hdegs]
  rfl

lemma paPredictBase_congr (g1 g2 : Fitted) (h : g1.indptr = g2.indptr) :
    paPredictBase g1 = paPredictBase g2 := by
  cases g1
  cases g2
  simp only [Fitted.mk.injEq] at h ⊢
  subst h
  rfl

/-! The large fitted instance used to exhibit `int32` overflow. -/

lemma getD_replicate (n : Nat) (a : Nat) :
    ∀ i : Nat, (List.replicate n a).getD i 0 = if i < n then a else 0 := by
  induction n with
  | zero => intro i; simp
  | succ n ih =>
    intro i
    cases i with
    | zero => simp [List.replicate_succ]
    | succ i =>
      rw [List.replicate_succ, List.getD_cons_succ, ih i]
      simp [Nat.succ_lt_succ_iff]

lemma gBig_ptr (k : Nat) : gBig.indptr.getD k 0 =
    if k = 0 then 0 else if k = 1 then 46341 else if k < 46342 then 92682 else 0 := by
  match k with
  | 0 => rfl
  | 1 => rfl
  | 2 => rfl
  | (k+3) =>
    have h : gBig.indptr = 0 :: 46341 :: 92682 :: List.replicate 46339 92682 := rfl
    rw [h]
    simp only [List.getD_cons_succ]
    rw [getD_replicate]
    rw [if_neg (by omega : ¬(k + 3 = 0)), if_neg (by omega : ¬(k + 3 = 1))]
    by_cases hk : k < 46339
    · rw [if_pos hk, if_pos (by omega)]
    · rw [if_neg hk, if_neg (by omega)]

lemma gBig_len : gBig.indptr.length = 46342 := by
  have h : gBig.indptr = 0 :: 46341 :: 92682 :: List.replicate 46339 92682 := rfl
  rw [h, List.length_cons, List.length_cons, List.length_cons, List.length_replicate]

lemma fitted_n_eq (g : Fitted) : g.n = g.indptr.length - 1 := rfl

lemma gBig_n : gBig.n = 46341 := by
  rw [fitted_n_eq, gBig_len]

lemma gBig_indices_len : gBig.indices.length = 92682 := by
  have h : gBig.indices = List.range 46341 ++ List.range 46341 := rfl
  rw [h, List.length_append]
  norm_num [List.length_range]

lemma gBig_deg0 : gBig.deg 0 = 46341 := by
  unfold Fitted.deg
  rw [gBig_ptr, gBig_ptr]
  norm_num

lemma gBig_deg1 : gBig.deg 1 = 46341 := by
  unfold Fitted.deg
  rw [gBig_ptr, gBig_ptr]
  norm_num

lemma gBig_deg_rest (i : Nat) (h2 : 2 ≤ i) : gBig.deg i = 0 := by
  unfold Fitted.deg
  rw [gBig_ptr, gBig_ptr]
  split_ifs <;> omega

lemma gBig_nbrs0 : gBig.nbrs 0 = List.range 46341 := by
  unfold Fitted.nbrs
  rw [gBig_deg0]
  rw [show gBig.indptr.getD 0 0 = 0 from rfl]
  show ((List.range 46341 ++ List.range 46341).drop 0).take 46341 = List.range 46341
  rw [List.drop_zero]
  have h := List.take_left (List.range 46341) (List.range 46341)
  simp only [List.length_range] at h
  exact h

lemma gBig_nbrs1 : gBig.nbrs 1 = List.range 46341 := by
  unfold Fitted.nbrs
  rw [gBig_deg1]
  rw [show gBig.indptr.getD 1 0 = 46341 from rfl]
  show ((List.range 46341 ++ List.range 46341).drop 46341).take 46341 = List.range 46341
  have h := List.drop_left (List.range 46341) (List.range 46341)
  simp only [List.length_range] at h
  rw [h]
  have h2 := List.take_length (List.range 46341)
  simp only [List.length_range] at h2
  exact h2

lemma gBig_nbrs_rest (i : Nat) (h2 : 2 ≤ i) : gBig.nbrs i = [] := by
  unfold Fitted.nbrs
  rw [gBig_deg_rest i h2]
  simp

lemma gBig_valid : ValidFitted gBig := by
  refine ⟨?_, rfl, ?_, ?_, ?_, ?_, ?_⟩
  · intro h
    have := congrArg List.length h
    rw [gBig_len] at this
    simp at this
  · intro k hk
    rw [gBig_len] at hk
    rw [gBig_ptr, gBig_ptr]
    split_ifs <;> first | omega | exact (False.elim (by assumption))
  · rw [gBig_n, gBig_ptr, gBig_indices_len]
    norm_num
  · intro x hx
    rw [gBig_n]
    have h : gBig.indices = List.range 46341 ++ List.range 46341 := rfl
    rw [h] at hx
    rcases List.mem_append.mp hx with h2 | h2 <;> exact List.mem_range.mp h2
  · intro k hk
    rw [gBig_ptr]
    split_ifs <;> norm_num
  · intro i hi
    rw [gBig_n] at hi
    by_cases h0 : i = 0
    · subst h0
      rw [gBig_nbrs0]
      exact List.pairwise_lt_range 46341
    · by_cases h1 : i = 1
      · subst h1
        rw [gBig_nbrs1]
        exact List.pairwise_lt_range 46341
      · rw [gBig_nbrs_rest i (by omega)]
        exact List.sorted_nil

/-! Lemmas about boolean adjacencies converted to CSR inputs. -/

lemma rowsOf_length (n : Nat) (A : Nat → Nat → Bool) : (rowsOf n A).length = n := by
  simp [rowsOf]

lemma rowsOf_getD (n : Nat) (A : Nat → Nat → Bool) {i : Nat} (hi : i < n) :
    (rowsOf n A).getD i [] = (List.range n).filter (A i) :=
  getD_map_range _ hi []

lemma toRaw_indptr_getD (n : Nat) (A : Nat → Nat → Bool) {k : Nat} (hk : k ≤ n) :
    (toRaw n A).indptr.getD k 0 = (((rowsOf n A).take k).map List.length).sum :=
  getD_map_range _ (by omega) 0

lemma toRaw_n (n : Nat) (A : Nat → Nat → Bool) : (toRaw n A).n = n := by
  unfold RawCSR.n toRaw
  simp

lemma toRaw_valid (n : Nat) (A : Nat → Nat → Bool) : RawValid (toRaw n A) := by
  have hlen : (toRaw n A).indptr.length = n + 1 := by
    unfold toRaw
    simp
  refine ⟨?_, ?_, ?_, ?_, ?_⟩
  · intro h
    rw [h] at hlen
    simp at hlen
  · rw [toRaw_indptr_getD n A (Nat.zero_le n)]
    simp
  · intro k hk
    rw [hlen] at hk
    rw [toRaw_indptr_getD n A (by omega), toRaw_indptr_getD n A (by omega)]
    rw [List.take_succ]
    simp only [List.map_append, List.sum_append]
    omega
  · rw [show (toRaw n A).n = n from toRaw_n n A,
      toRaw_indptr_getD n A (le_refl n)]
    have ht : (rowsOf n A).take n = rowsOf n A := by
      have h := List.take_length (rowsOf n A)
      rw [rowsOf_length n A] at h
      exact h
    rw [ht]
    show ((rowsOf n A).map List.length).sum = (toRaw n A).indices.length
    rw [show (toRaw n A).indices = (rowsOf n A).flatten from rfl]
    exact (List.length_flatten (rowsOf n A)).symm
  · intro x hx
    rw [toRaw_n n A]
    rw [show (toRaw n A).indices = (rowsOf n A).flatten from rfl] at hx
    rcases List.mem_flatten.mp hx with ⟨l, hl, hxl⟩
    rcases List.mem_map.mp ((by simpa [rowsOf] using hl :
      l ∈ (List.range n).map (fun i => (List.range n).filter (A i)))) with ⟨i, _, rfl⟩
    have := List.mem_filter.mp hxl
    exact List.mem_range.mp this.1

lemma toRaw_row (n : Nat) (A : Nat → Nat → Bool) {i : Nat} (hi : i < n) :
    (toRaw n A).row i = (List.range n).filter (A i) := by
  have hlow := toRaw_indptr_getD n A (le_of_lt hi)
  have hhigh := toRaw_indptr_getD n A (show i + 1 ≤ n by omega)
  have hdiff : (toRaw n A).indptr.getD (i+1) 0 - (toRaw n A).indptr.getD i 0
      = ((rowsOf n A).getD i []).length := by
    rw [hlow, hhigh, List.take_succ]
    have hget : (rowsOf n A)[i]? = some ((rowsOf n A).getD i []) := by
      rw [List.getElem?_eq_getElem (by rw [rowsOf_length]; exact hi)]
      congr 1
      rw [List.getD_eq_getElem _ _ (by rw [rowsOf_length]; exact hi)]
    rw [hget]
    simp only [List.map_append, List.sum_append, Option.toList_some, List.map_cons,
      List.map_nil, List.sum_cons, List.sum_nil, add_zero]
    omega
  unfold RawCSR.row
  rw [hdiff, hlow]
  rw [show (toRaw n A).indices = (rowsOf n A).flatten from rfl]
  rw [slice_flatten (rowsOf n A) i (by rw [rowsOf_length]; exact hi)]
  exact rowsOf_getD n A hi

lemma fit_toRaw_nbrs (n : Nat) (A : Nat → Nat → Bool) {i : Nat} (hi : i < n) :
    (fit (toRaw n A)).nbrs i = (List.range n).filter (A i) := by
  rw [fit_nbrs (toRaw n A) (toRaw_valid n A) (by rw [toRaw_n]; exact hi)]
  rw [toRaw_row n A hi]
  have hs : List.Sorted (· ≤ ·) ((List.range n).filter (A i)) := by
    have := (List.pairwise_lt_range n).filter (A i)
    exact this.imp (fun h => le_of_lt h)
  exact hs.insertionSort_eq

lemma addEdge_other (A : Nat → Nat → Bool) (u v i : Nat) (hiu : i ≠ u) (hiv : i ≠ v) :
    ∀ b, addEdge A u v i b = A i b := by
  intro b
  simp [addEdge, hiu, hiv]

/-! Dispatcher evaluation lemma. -/

lemma optMap_spec {α β : Type} (f : α → Option β) :
    ∀ (l : List α) (v : List β), optMap f l = some v →
      v.length = l.length ∧
      ∀ k a0 b0, k < l.length → f (l.getD k a0) = some (v.getD k b0) := by
  intro l
  induction l with
  | nil =>
    intro v h
    have h2 : some ([] : List β) = some v := h
    injection h2 with h3
    subst h3
    exact ⟨rfl, fun k a0 b0 hk => absurd hk (by simp)⟩
  | cons a t ih =>
    intro v h
    rw [optMap] at h
    cases hfa : f a with
    | none => rw [hfa] at h; simp at h
    | some b =>
      rw [hfa] at h
      simp only [Option.some_bind] at h
      cases hmt : optMap f t with
      | none => rw [hmt] at h; simp at h
      | some bs =>
        rw [hmt] at h
        simp only [Option.map_some', Option.some.injEq] at h
        subst h
        obtain ⟨hlen, hel⟩ := ih bs hmt
        refine ⟨by simp [hlen], ?_⟩
        intro k a0 b0 hk
        cases k with
        | zero => simpa using hfa
        | succ k =>
          simp only [List.getD_cons_succ]
          exact hel k a0 b0 (by simpa using hk)

/-- C1: for every fitted graph and valid pair (i, j), the Hub Promoted
score equals twice the size of the intersection of the neighbor sets of i
and j divided by the smaller degree, and equals 0 when the smaller degree
is 0. -/
theorem C1_hub_promoted_formula (g : Fitted) (hv : ValidFitted g) {i j : Nat}
    (hi : i < g.n) (hj : j < g.n) :
    (min (g.deg i) (g.deg j) ≠ 0 →
      hubPromotedScore g i j =
        2 * (((g.nbrs i).toFinset ∩ (g.nbrs j).toFinset).card : ℚ)
          / (min (g.deg i) (g.deg j) : ℚ)) ∧
    (min (g.deg i) (g.deg j) = 0 → hubPromotedScore g i j = 0) := by
  constructor
  · intro hmin
    unfold hubPromotedScore
    rw [if_neg hmin]
    rw [show cnScore g i j = ((g.nbrs i).toFinset ∩ (g.nbrs j).toFinset).card from
      interSize_eq_card _ _ (hv.2.2.2.2.2.2 i hi) (hv.2.2.2.2.2.2 j hj)]
  · intro hmin
    unfold hubPromotedScore
    rw [if_pos hmin]

/-- Witness for C1 at the house graph, pair (0, 1). -/
theorem C1_hub_promoted_witness :
    (min (houseFitted.deg 0) (houseFitted.deg 1) ≠ 0 →
      hubPromotedScore houseFitted 0 1 =
        2 * (((houseFitted.nbrs 0).toFinset ∩ (houseFitted.nbrs 1).toFinset).card : ℚ)
          / (min (houseFitted.deg 0) (houseFitted.deg 1) : ℚ)) ∧
    (min (houseFitted.deg 0) (houseFitted.deg 1) = 0 →
      hubPromotedScore houseFitted 0 1 = 0) :=
  C1_hub_promoted_formula houseFitted (by decide) (by decide) (by decide)

/-- C5: for every fitted graph over a symmetric adjacency and every valid
pair (i, j), every metric scores (i, j) and (j, i) identically. -/
theorem C5_symmetry (g : Fitted) (hv : ValidFitted g)
    (_hsym : ∀ a, a < g.n → ∀ b, b < g.n → (b ∈ g.nbrs a ↔ a ∈ g.nbrs b))
    {i j : Nat} (hi : i < g.n) (hj : j < g.n) :
    cnScore g i j = cnScore g j i ∧
    jaccardScore g i j = jaccardScore g j i ∧
    saltonScore g i j = saltonScore g j i ∧
    sorensenScore g i j = sorensenScore g j i ∧
    hubPromotedScore g i j = hubPromotedScore g j i ∧
    hubDepressedScore g i j = hubDepressedScore g j i ∧
    adamicAdarScore g i j = adamicAdarScore g j i ∧
    resourceAllocationScore g i j = resourceAllocationScore g j i ∧
    paScore g i j = paScore g j i := by
  have hsi := hv.2.2.2.2.2.2 i hi
  have hsj := hv.2.2.2.2.2.2 j hj
  have hcn : cnScore g i j = cnScore g j i := interSize_comm hsi hsj
  have hil : interList g i j = interList g j i := interList_comm g hv hi hj
  refine ⟨hcn, ?_, ?_, ?_, ?_, ?_, ?_, ?_, ?_⟩
  · simp only [jaccardScore]
    rw [hcn, add_comm ((g.deg i : ℚ)) ((g.deg j : ℚ))]
  · unfold saltonScore
    rw [hcn, Nat.mul_comm (g.deg i) (g.deg j), mul_comm ((g.deg i : ℝ)) ((g.deg j : ℝ))]
  · unfold sorensenScore
    rw [hcn, Nat.add_comm (g.deg i) (g.deg j), add_comm ((g.deg i : ℚ)) ((g.deg j : ℚ))]
  · unfold hubPromotedScore
    rw [hcn, Nat.min_comm (g.deg i) (g.deg j), min_comm ((g.deg i : ℚ)) ((g.deg j : ℚ))]
  · unfold hubDepressedScore
    rw [hcn, Nat.max_comm (g.deg i) (g.deg j), max_comm ((g.deg i : ℚ)) ((g.deg j : ℚ))]
  · unfold adamicAdarScore
    rw [hil]
  · unfold resourceAllocationScore
    rw [hil]
  · unfold paScore
    rw [mul_comm ((g.deg i : Int)) ((g.deg j : Int))]

/-- Witness for C5 at the house graph, pair (0, 1). -/
theorem C5_symmetry_witness :
    cnScore houseFitted 0 1 = cnScore houseFitted 1 0 ∧
    jaccardScore houseFitted 0 1 = jaccardScore houseFitted 1 0 ∧
    saltonScore houseFitted 0 1 = saltonScore houseFitted 1 0 ∧
    sorensenScore houseFitted 0 1 = sorensenScore houseFitted 1 0 ∧
    hubPromotedScore houseFitted 0 1 = hubPromotedScore houseFitted 1 0 ∧
    hubDepressedScore houseFitted 0 1 = hubDepressedScore houseFitted 1 0 ∧
    adamicAdarScore houseFitted 0 1 = adamicAdarScore houseFitted 1 0 ∧
    resourceAllocationScore houseFitted 0 1 = resourceAllocationScore houseFitted 1 0 ∧
    paScore houseFitted 0 1 = paScore houseFitted 1 0 :=
  C5_symmetry houseFitted (by decide) (by decide) (by decide) (by decide)

/-- C2 counterexample: on a fitted instance where nodes 0 and 1 both have
degree 46341, the Preferential Attachment score of (0, 1) is the `int32`
wrap-around value -2147479015, not the exact product 46341 * 46341. -/
theorem C2_counterexample :
    ValidFitted gBig ∧ 0 < gBig.n ∧ 1 < gBig.n ∧
    paPredictBase gBig 0 [1] ≠ some [(gBig.deg 0 : Int) * (gBig.deg 1 : Int)] := by
  have h0 : (0 : Nat) < gBig.n := by rw [gBig_n]; norm_num
  have h1 : (1 : Nat) < gBig.n := by rw [gBig_n]; norm_num
  refine ⟨gBig_valid, h0, h1, ?_⟩
  have hp := paPredictBase_pair gBig gBig_valid h0 h1
  norm_num at hp
  rw [hp]
  have hs : paScore gBig 0 1 = -2147479015 := by
    unfold paScore
    rw [gBig_deg0, gBig_deg1]
    decide
  rw [hs, gBig_deg0, gBig_deg1]
  decide

/-- C2 (amended): for every fitted instance and valid pair (i, j), the
Preferential Attachment score is the degree product computed in `int32`
arithmetic; it equals the exact product whenever that product is below
2 ^ 31. -/
theorem C2_pa_product (g : Fitted) (hv : ValidFitted g) {i j : Nat}
    (hi : i < g.n) (hj : j < g.n) :
    paPredictBase g (i : Int) [(j : Int)] =
      some [int32wrap ((g.deg i : Int) * (g.deg j : Int))] ∧
    ((g.deg i : Int) * (g.deg j : Int) < 2 ^ 31 →
      paPredictBase g (i : Int) [(j : Int)] = some [(g.deg i : Int) * (g.deg j : Int)]) := by
  have hpair := paPredictBase_pair g hv hi hj
  constructor
  · rw [hpair]; rfl
  · intro hlt
    rw [hpair]
    have h0 : (0 : Int) ≤ (g.deg i : Int) * (g.deg j : Int) :=
      mul_nonneg (Int.ofNat_nonneg _) (Int.ofNat_nonneg _)
    have hps : paScore g i j = (g.deg i : Int) * (g.deg j : Int) := by
      unfold paScore
      exact int32wrap_eq_self (by omega) hlt
    rw [hps]

/-- Witness for the amended C2 at the house graph, pair (0, 1). -/
theorem C2_pa_product_witness :
    paPredictBase houseFitted ((0 : Nat) : Int) [((1 : Nat) : Int)] =
      some [int32wrap ((houseFitted.deg 0 : Int) * (houseFitted.deg 1 : Int))] ∧
    ((houseFitted.deg 0 : Int) * (houseFitted.deg 1 : Int) < 2 ^ 31 →
      paPredictBase houseFitted ((0 : Nat) : Int) [((1 : Nat) : Int)] =
        some [(houseFitted.deg 0 : Int) * (houseFitted.deg 1 : Int)]) :=
  C2_pa_product houseFitted (by decide) (by decide) (by decide)

/-- C6 counterexample: on the same overflowing instance, the self score
of node 0 under Preferential Attachment is not deg(0) squared. -/
theorem C6_counterexample :
    ValidFitted gBig ∧ 0 < gBig.n ∧
    paPredictBase gBig 0 [0] ≠ some [(gBig.deg 0 : Int) ^ 2] := by
  have h0 : (0 : Nat) < gBig.n := by rw [gBig_n]; norm_num
  refine ⟨gBig_valid, h0, ?_⟩
  have hp := paPredictBase_pair gBig gBig_valid h0 h0
  norm_num at hp
  rw [hp]
  have hs : paScore gBig 0 0 = -2147479015 := by
    unfold paScore
    rw [gBig_deg0]
    decide
  rw [hs, gBig_deg0]
  decide

/-- C6 (amended): scoring a node against itself applies the ordinary
formula with no short-circuit: CommonNeighbors(i, i) equals deg(i), and
PreferentialAttachment(i, i) equals the `int32`-wrapped deg(i) squared,
hence exactly deg(i) squared whenever that square is below 2 ^ 31. -/
theorem C6_self_score (g : Fitted) (hv : ValidFitted g) {i : Nat} (hi : i < g.n) :
    cnScore g i i = g.deg i ∧
    paPredictBase g (i : Int) [(i : Int)] =
      some [int32wrap ((g.deg i : Int) * (g.deg i : Int))] ∧
    ((g.deg i : Int) * (g.deg i : Int) < 2 ^ 31 →
      paPredictBase g (i : Int) [(i : Int)] = some [(g.deg i : Int) * (g.deg i : Int)]) := by
  have hpair := paPredictBase_pair g hv hi hi
  refine ⟨?_, ?_, ?_⟩
  · unfold cnScore
    rw [interSize_self]
    exact nbrs_length g hv hi
  · rw [hpair]; rfl
  · intro hlt
    rw [hpair]
    have h0 : (0 : Int) ≤ (g.deg i : Int) * (g.deg i : Int) :=
      mul_nonneg (Int.ofNat_nonneg _) (Int.ofNat_nonneg _)
    have hps : paScore g i i = (g.deg i : Int) * (g.deg i : Int) := by
      unfold paScore
      exact int32wrap_eq_self (by omega) hlt
    rw [hps]

/-- Witness for the amended C6 at the house graph, node 0. -/
theorem C6_self_score_witness :
    cnScore houseFitted 0 0 = houseFitted.deg 0 ∧
    paPredictBase houseFitted ((0 : Nat) : Int) [((0 : Nat) : Int)] =
      some [int32wrap ((houseFitted.deg 0 : Int) * (houseFitted.deg 0 : Int))] ∧
    ((houseFitted.deg 0 : Int) * (houseFitted.deg 0 : Int) < 2 ^ 31 →
      paPredictBase houseFitted ((0 : Nat) : Int) [((0 : Nat) : Int)] =
        some [(houseFitted.deg 0 : Int) * (houseFitted.deg 0 : Int)]) :=
  C6_self_score houseFitted (by decide) (by decide)

/-- C3 counterexample: on the fitted house graph the query source id -1
is outside the valid range [0, 5), yet Preferential Attachment prediction
does not raise and silently returns a score, because numpy wraps negative
indices. -/
theorem C3_counterexample :
    ((-1 : Int) < 0 ∨ (houseFitted.n : Int) ≤ -1) ∧
    paPredictBase houseFitted (-1) [0] = some [-24] := by
  constructor
  · exact Or.inl (by norm_num)
  · decide

/-- C3 (amended): a query referencing any node id, source or target,
that is at least n or below -(n+1) raises IndexError-kind and produces
no result; but ids in [-(n+1), -1], in either position, are silently
accepted through numpy negative-index wrap-around and the query
produces a score. -/
theorem C3_index_error (g : Fitted) (hv : ValidFitted g) :
    (∀ s : Int, ((g.n : Int) ≤ s ∨ s < -((g.n : Int) + 1)) →
      ∀ ts : List Int, paPredictBase g s ts = none) ∧
    (∀ s : Int, -((g.n : Int) + 1) ≤ s → s < (g.n : Int) →
      ∀ (ts : List Int) (t : Int), t ∈ ts →
        ((g.n : Int) ≤ t ∨ t < -((g.n : Int) + 1)) →
          paPredictBase g s ts = none) ∧
    (∀ s : Int, -((g.n : Int) + 1) ≤ s → s < (g.n : Int) →
      ∀ ts : List Int, (∀ t ∈ ts, -((g.n : Int) + 1) ≤ t ∧ t < (g.n : Int)) →
        (paPredictBase g s ts).isSome) :=
  ⟨fun s hs ts => paPredictBase_oob g hv s ts hs,
   fun s h1 h2 ts t ht hbad => paPredictBase_bad_target g hv s h1 h2 ts t ht hbad,
   fun s h1 h2 ts hts => paPredictBase_inrange_isSome g hv s h1 h2 ts hts⟩

/-- Witness for the amended C3 at the house graph: source 7 errors,
target 7 errors even under a valid source, and the query with source -1
and targets 0 and -2 silently succeeds. -/
theorem C3_index_error_witness :
    paPredictBase houseFitted 7 [0] = none ∧
    paPredictBase houseFitted 0 [7] = none ∧
    (paPredictBase houseFitted (-1) [0, -2]).isSome := by
  have h := C3_index_error houseFitted (by decide)
  exact ⟨h.1 7 (by decide) [0],
    h.2.1 0 (by decide) (by decide) [7] 7 (by decide) (by decide),
    h.2.2 (-1) (by decide) (by decide) [0, -2] (by decide)⟩

/-- C4: on the 5-node house graph, Common Neighbors fit_predict from node
0 returns [2,1,1,1,1], Jaccard returns values that round to
[1.0, 0.25, 0.33, 0.33, 0.25], and Preferential Attachment returns
[4,6,4,4,6]. -/
theorem C4_house_scores :
    fitPredict cnKernel houseRaw (LPQuery.node 0) =
      some (LPResult.vector [2, 1, 1, 1, 1]) ∧
    fitPredict jaccardKernel houseRaw (LPQuery.node 0) =
      some (LPResult.vector [1, 1/4, 1/3, 1/3, 1/4]) ∧
    ([1, 1/4, 1/3, 1/3, 1/4] : List ℚ).map round2 =
      [1, 25/100, 33/100, 33/100, 25/100] ∧
    fitPredict paKernel houseRaw (LPQuery.node 0) =
      some (LPResult.vector [4, 6, 4, 4, 6]) := by
  refine ⟨by decide, ?_, ?_, by decide⟩
  · have hc0 : cnScore houseFitted 0 0 = 2 := by decide
    have hc1 : cnScore houseFitted 0 1 = 1 := by decide
    have hc2 : cnScore houseFitted 0 2 = 1 := by decide
    have hc3 : cnScore houseFitted 0 3 = 1 := by decide
    have hc4 : cnScore houseFitted 0 4 = 1 := by decide
    have hd0 : houseFitted.deg 0 = 2 := by decide
    have hd1 : houseFitted.deg 1 = 3 := by decide
    have hd2 : houseFitted.deg 2 = 2 := by decide
    have hd3 : houseFitted.deg 3 = 2 := by decide
    have hd4 : houseFitted.deg 4 = 3 := by decide
    have e0 : jaccardScore houseFitted 0 0 = 1 := by
      simp only [jaccardScore, hc0, hd0]; norm_num
    have e1 : jaccardScore houseFitted 0 1 = 1/4 := by
      simp only [jaccardScore, hc1, hd0, hd1]; norm_num
    have e2 : jaccardScore houseFitted 0 2 = 1/3 := by
      simp only [jaccardScore, hc2, hd0, hd2]; norm_num
    have e3 : jaccardScore houseFitted 0 3 = 1/3 := by
      simp only [jaccardScore, hc3, hd0, hd3]; norm_num
    have e4 : jaccardScore houseFitted 0 4 = 1/4 := by
      simp only [jaccardScore, hc4, hd0, hd4]; norm_num
    have hn : houseFitted.n = 5 := by decide
    show (jaccardKernel houseFitted 0 (intRange houseFitted.n)).map LPResult.vector =
      some (LPResult.vector [1, 1/4, 1/3, 1/3, 1/4])
    rw [hn, show intRange 5 = [0, 1, 2, 3, 4] from by decide]
    simp only [jaccardKernel, checkId, optMap, hn]
    norm_num [e0, e1, e2, e3, e4, Int.toNat_ofNat]
    exact ⟨e2, e3, e4⟩
  · have r1 : round2 1 = 1 := by unfold round2; norm_num
    have r2 : round2 (1/4) = 25/100 := by
      unfold round2
      rw [show ⌊(100 : ℚ) * (1/4) + 1/2⌋ = 25 from by norm_num [Int.floor_eq_iff]]
      norm_num
    have r3 : round2 (1/3) = 33/100 := by
      unfold round2
      rw [show ⌊(100 : ℚ) * (1/3) + 1/2⌋ = 33 from by norm_num [Int.floor_eq_iff]]
      norm_num
    simp only [List.map_cons, List.map_nil, r1, r2, r3]

/-- C7: for every kernel and instance, predicting a list of pairs returns
one score per pair in input order, each equal to the prediction of that
single pair. -/
theorem C7_pairs_roundtrip {S : Type} (K : Int → List Int → Option (List S)) (n : Nat)
    (l : List (Int × Int)) (v : List S)
    (h : predictDisp K n (LPQuery.pairs l) = some (LPResult.vector v)) :
    v.length = l.length ∧
    ∀ k p0 x0, k < l.length →
      predictDisp K n (LPQuery.pair (l.getD k p0)) =
        some (LPResult.scalar (v.getD k x0)) := by
  have hd : predictDisp K n (LPQuery.pairs l)
      = (optMap (predictEdge K) l).map LPResult.vector := rfl
  rw [hd] at h
  have hm : optMap (predictEdge K) l = some v := by
    cases ho : optMap (predictEdge K) l with
    | none => rw [ho] at h; simp at h
    | some w =>
      rw [ho] at h
      simp only [Option.map_some', Option.some.injEq, LPResult.vector.injEq] at h
      rw [h]
  obtain ⟨hlen, hel⟩ := optMap_spec (predictEdge K) l v hm
  refine ⟨hlen, ?_⟩
  intro k p0 x0 hk
  have he := hel k p0 x0 hk
  have hd2 : predictDisp K n (LPQuery.pair (l.getD k p0))
      = (predictEdge K (l.getD k p0)).map LPResult.scalar := rfl
  rw [hd2, he]
  rfl

/-- Witness for C7: Common Neighbors on the house graph with the pair
list [(0,1),(1,2)]. -/
theorem C7_pairs_roundtrip_witness :
    predictDisp (cnKernel houseFitted) houseFitted.n
        (LPQuery.pairs [(0, 1), (1, 2)]) = some (LPResult.vector [1, 0]) ∧
    ([1, 0] : List Nat).length = ([(0, 1), (1, 2)] : List (Int × Int)).length ∧
    predictDisp (cnKernel houseFitted) houseFitted.n
        (LPQuery.pair (([(0, 1), (1, 2)] : List (Int × Int)).getD 1 (0, 0))) =
      some (LPResult.scalar (([1, 0] : List Nat).getD 1 7)) := by
  have h : predictDisp (cnKernel houseFitted) houseFitted.n
      (LPQuery.pairs [(0, 1), (1, 2)]) = some (LPResult.vector [1, 0]) := by decide
  obtain ⟨h1, h2⟩ :=
    C7_pairs_roundtrip (cnKernel houseFitted) houseFitted.n [(0, 1), (1, 2)] [1, 0] h
  exact ⟨h, h1, h2 1 (0, 0) 7 (by norm_num)⟩

/-- C8: adding an edge {u, v} to a graph never decreases the Common
Neighbors score of a pair (i, j) disjoint from {u, v} that shares a
neighbor in the extended graph. -/
theorem C8_cn_monotonicity (n : Nat) (A : Nat → Nat → Bool) (u v i j : Nat)
    (hin : i < n) (hjn : j < n) (hiu : i ≠ u) (hiv : i ≠ v) (hju : j ≠ u) (hjv : j ≠ v)
    (_hnotin : A u v = false)
    (_hshare : ∃ z, z < n ∧ addEdge A u v i z = true ∧ addEdge A u v j z = true) :
    cnScore (fit (toRaw n A)) i j ≤ cnScore (fit (toRaw n (addEdge A u v))) i j := by
  have hri : (fit (toRaw n (addEdge A u v))).nbrs i = (fit (toRaw n A)).nbrs i := by
    rw [fit_toRaw_nbrs n _ hin, fit_toRaw_nbrs n A hin]
    exact List.filter_congr (fun b _ => addEdge_other A u v i hiu hiv b)
  have hrj : (fit (toRaw n (addEdge A u v))).nbrs j = (fit (toRaw n A)).nbrs j := by
    rw [fit_toRaw_nbrs n _ hjn, fit_toRaw_nbrs n A hjn]
    exact List.filter_congr (fun b _ => addEdge_other A u v j hju hjv b)
  unfold cnScore
  rw [hri, hrj]

/-- Witness for C8: the house graph without the edge {2, 3}, restored by
addEdge, for the pair (0, 1) sharing neighbor 4. -/
theorem C8_cn_monotonicity_witness :
    cnScore (fit (toRaw 5 houseA)) 0 1 ≤
      cnScore (fit (toRaw 5 (addEdge houseA 2 3))) 0 1 :=
  C8_cn_monotonicity 5 houseA 2 3 0 1 (by norm_num) (by norm_num)
    (by norm_num) (by norm_num) (by norm_num) (by norm_num) (by decide)
    ⟨4, by norm_num, by decide, by decide⟩

/-- C9: Preferential Attachment predictions depend only on the stored
pointer array: two fitted instances with equal indptr give identical
results on every query, whatever their indices arrays hold. -/
theorem C9_pa_noninterference (g1 g2 : Fitted) (h : g1.indptr = g2.indptr)
    (q : LPQuery) :
    predictDisp (paKernel g1) g1.n q = predictDisp (paKernel g2) g2.n q := by
  have hk : paKernel g1 = paKernel g2 := paPredictBase_congr g1 g2 h
  have hn : g1.n = g2.n := by unfold Fitted.n; rw [h]
  rw [hk, hn]

/-- Witness for C9: two instances with equal pointer arrays but different
indices contents answer the node-0 query identically. -/
theorem C9_pa_noninterference_witness :
    gA.indices ≠ gB.indices ∧
    predictDisp (paKernel gA) gA.n (LPQuery.node 0) =
      predictDisp (paKernel gB) gB.n (LPQuery.node 0) :=
  ⟨by decide, C9_pa_noninterference gA gB rfl (LPQuery.node 0)⟩

/-- C10: after every fit call on a well-formed input, even one with
unsorted rows, every stored neighbor slice is sorted ascending, and no
predict call changes the fitted state. -/
theorem C10_fit_sorted (r : RawCSR) (hr : RawValid r) :
    (∀ i, i < (fit r).n → List.Sorted (· ≤ ·) ((fit r).nbrs i)) ∧
    (∀ (S : Type) (K : Fitted → Int → List Int → Option (List S)) (q : LPQuery),
      (predictSt K (fit r) q).1 = fit r) := by
  constructor
  · intro i hi
    rw [fit_nbrs r hr hi]
    exact List.sorted_insertionSort _ _
  · intro S K q
    rfl

/-- Witness for C10: a raw input whose first row is stored unsorted. -/
theorem C10_fit_sorted_witness :
    ¬ List.Sorted (· ≤ ·) (rawUnsorted.row 0) ∧
    List.Sorted (· ≤ ·) ((fit rawUnsorted).nbrs 0) ∧
    (predictSt cnKernel (fit rawUnsorted) (LPQuery.node 0)).1 = fit rawUnsorted := by
  have h := C10_fit_sorted rawUnsorted (by decide)
  exact ⟨by decide, h.1 0 (by decide), h.2 Nat cnKernel (LPQuery.node 0)⟩
